import Mathlib

/-!
Verification of the core call pipeline of the `twitch` client library
(`packages/twitch/src/TwitchClient.ts`): request building, response
decoding, token-introspection error mapping, the 401 refresh-and-retry
protocol of `callAPI`, and the FIFO discipline of the Helix rate limiter.

The TypeScript source is shallowly embedded: JS objects become structures,
optional fields become `Option`, JS truthiness is modelled explicitly where
the source relies on it, and the external primitives the code delegates to
(`fetch`, JSON parsing/serialisation, the `qs` stringifier) are passed in
as explicit function arguments.
-/

namespace Twitch

/-- The endpoint group enum `TwitchAPICallType` of the source:
Kraken (standard), Helix (quota-constrained), Auth, Custom. -/
inductive TwitchAPICallType
  | Kraken
  | Helix
  | Auth
  | Custom
deriving DecidableEq, Repr

/-- A JSON value, as produced by `JSON.parse` / consumed by `JSON.stringify`.
Numbers are modelled as integers; none of the verified code inspects
numeric values beyond truthiness. -/
inductive Json
  | null
  | bool (b : Bool)
  | num (n : Int)
  | str (s : String)
  | arr (elems : List Json)
  | obj (fields : List (String × Json))

/-- JavaScript truthiness of a JSON value (`if (options.jsonBody)`):
`null`, `false`, `0` and `""` are falsy; arrays and objects are truthy. -/
def jsTruthy : Json → Bool
  | .null => false
  | .bool b => b
  | .num n => n != 0
  | .str s => s != ""
  | .arr _ => true
  | .obj _ => true

/-- JavaScript truthiness of an optional string
(`if (clientId)`, `if (accessToken)`): absent and `""` are falsy. -/
def strTruthy : Option String → Bool
  | none => false
  | some s => s != ""

/-- JavaScript `options.version || 5`: `undefined` and `0` fall back to
the default. -/
def jsOrNat (v : Option Nat) (d : Nat) : Nat :=
  match v with
  | none => d
  | some n => if n = 0 then d else n

/-- A query / form mapping `Record<string, string | string[] | undefined>`.
Entries with `undefined` values are omitted by the embedding (the qs
stringifier skips them anyway). -/
def FormMap := List (String × List String)

/-- The `TwitchAPICallOptions` descriptor of a single API call. -/
structure TwitchAPICallOptions where
  url : String
  type : Option TwitchAPICallType := none
  method : Option String := none
  query : FormMap := []
  body : Option FormMap := none
  jsonBody : Option Json := none
  scope : Option String := none
  version : Option Nat := none

/-- Line 352 of the source: `options.type === undefined ? Kraken : options.type`. -/
def effectiveType (options : TwitchAPICallOptions) : TwitchAPICallType :=
  options.type.getD .Kraken

/-- The regex replace `url.replace(/^\//, '')`: strip one leading slash. -/
def stripLeadingSlash (s : String) : String :=
  match s.data with
  | '/' :: rest => String.mk rest
  | _ => s

/-- `TwitchClient._getUrl`: resolve the descriptor path against the root
URL of its endpoint group. -/
def getUrl (url : String) (type : TwitchAPICallType) : String :=
  match type with
  | .Kraken => "https://api.twitch.tv/kraken/" ++ stripLeadingSlash url
  | .Helix => "https://api.twitch.tv/helix/" ++ stripLeadingSlash url
  | .Auth => "https://id.twitch.tv/oauth2/" ++ stripLeadingSlash url
  | .Custom => url

/-- The HTTP response handed to `_transformResponse`: status, status text
and the raw body text. `response.json()` is `parse` applied to the body. -/
structure Response where
  status : Nat
  statusText : String
  body : String
deriving DecidableEq, Repr

/-- `response.ok` per the fetch standard: status in the 2xx success range. -/
def Response.ok (r : Response) : Bool :=
  200 ≤ r.status && r.status ≤ 299

/-- The error taxonomy surfaced by the pipeline: `HTTPStatusCodeError`
(with status code, status text and parsed body), `InvalidTokenError`, and
a propagated JSON parse failure (`SyntaxError` from `JSON.parse`). -/
inductive CallError
  | httpStatus (statusCode : Nat) (statusText : String) (body : Json)
  | invalidToken
  | parseError (msg : String)

/-- `TwitchClient._transformResponse`, with the JSON parser passed
explicitly. `Except.ok none` is the `undefined` result returned for
status 204 and for an empty body on a success status. -/
def transformResponse (parse : String → Except String Json)
    (r : Response) : Except CallError (Option Json) :=
  if !r.ok then
    match parse r.body with
    | .error m => .error (.parseError m)
    | .ok j => .error (.httpStatus r.status r.statusText j)
  else if r.status = 204 then
    .ok none
  else if r.body = "" then
    .ok none
  else
    match parse r.body with
    | .error m => .error (.parseError m)
    | .ok j => .ok (some j)

/-- A transport-ready request as built by `_callAPIRaw`: the final URL
(query string appended when non-empty), the method, the headers in
append order, and the encoded body if any. -/
structure BuiltRequest where
  url : String
  method : String
  headers : List (String × String)
  body : Option String
deriving DecidableEq, Repr

/-- Case-exact lookup of the first header with the given name. -/
def headerValue (req : BuiltRequest) (name : String) : Option String :=
  (req.headers.find? fun p => p.1 = name).map Prod.snd

/-- `TwitchClient._callAPIRaw` up to (but not including) the `fetch` call:
builds the request from the descriptor, the optional client id and the
optional access token. The serialisers of the external `qs` library
(`stringify` with `arrayFormat: 'repeat'` for the query, plain `stringify`
for the form body) and `JSON.stringify` are explicit arguments. -/
def callAPIRaw (stringifyQuery : FormMap → String)
    (stringifyForm : FormMap → String) (jsonStringify : Json → String)
    (options : TwitchAPICallOptions) (clientId : Option String)
    (accessToken : Option String) : BuiltRequest :=
  let type := effectiveType options
  let url := getUrl options.url type
  let params := stringifyQuery options.query
  let headers0 : List (String × String) :=
    [("Accept",
      if type = .Kraken then
        "application/vnd.twitchtv.v" ++ toString (jsOrNat options.version 5) ++ "+json"
      else
        "application/json")]
  let (body, headers1) :=
    match options.body with
    | some form =>
      (some (stringifyForm form),
       headers0 ++ [("Content-Type", "application/x-www-form-urlencoded")])
    | none =>
      match options.jsonBody with
      | some jv =>
        if jsTruthy jv then
          (some (jsonStringify jv), headers0 ++ [("Content-Type", "application/json")])
        else
          (none, headers0)
      | none => (none, headers0)
  let headers2 :=
    if strTruthy clientId && type != .Auth then
      headers1 ++ [("Client-ID", clientId.getD "")]
    else
      headers1
  let headers3 :=
    if strTruthy accessToken then
      headers2 ++
        [("Authorization",
          (if type = .Helix then "Bearer" else "OAuth") ++ " " ++ accessToken.getD "")]
    else
      headers2
  { url := if params != "" then url ++ "?" ++ params else url
    method := options.method.getD "GET"
    headers := headers3
    body := body }

/-- The two dispatch routes of `_callAPIInternal`: through the Helix rate
limiter, or directly via `_callAPIRaw`. -/
inductive DispatchRoute
  | limiter
  | direct
deriving DecidableEq, Repr

/-- The routing decision of `TwitchClient._callAPIInternal`: only a
descriptor whose `type` field is literally `Helix` goes through the
rate limiter. -/
def callAPIInternalRoute (options : TwitchAPICallOptions) : DispatchRoute :=
  if options.type = some .Helix then .limiter else .direct

/-- The catch handler shared by the static and the instance `getTokenInfo`:
an `HTTPStatusCodeError` with status code 401 is replaced by
`InvalidTokenError`; anything else is rethrown unchanged. -/
def mapTokenInfoError (e : CallError) : CallError :=
  match e with
  | .httpStatus code text body =>
    if code = 401 then .invalidToken else .httpStatus code text body
  | e => e

/-- `TwitchClient.getTokenInfo` (static): run the `validate` call and
translate a 401 failure into `InvalidTokenError`. The result of the
underlying `callAPI` is passed in. -/
def staticGetTokenInfo (callResult : Except CallError Json) :
    Except CallError Json :=
  match callResult with
  | .ok data => .ok data
  | .error e => .error (mapTokenInfoError e)

/-- `TwitchClient#getTokenInfo` (instance): identical catch logic over the
instance `callAPI` result. -/
def instanceGetTokenInfo (callResult : Except CallError Json) :
    Except CallError Json :=
  match callResult with
  | .ok data => .ok data
  | .error e => .error (mapTokenInfoError e)

/-- An access token as seen by the pipeline: the raw token string and the
`isExpired` flag. -/
structure AccessToken where
  accessToken : String
  isExpired : Bool
deriving DecidableEq, Repr

/-- The injected `AuthProvider` capability, as a deterministic state
machine over a provider-state type `σ`: `getAccessToken` takes the
optional scope list and may fail to return a token; `refresh` is present
exactly when the provider supports refreshing. -/
structure ProviderModel (σ : Type) where
  clientId : String
  getAccessToken : σ → Option (List String) → Option AccessToken × σ
  refresh : Option (σ → AccessToken × σ)

/-- The observable actions of one `callAPI` invocation, in program order:
token acquisitions (with the scope argument passed to the provider),
provider refreshes, and transport dispatches (with the client id and
access token arguments). -/
inductive Event
  | getToken (scopes : Option (List String))
  | refresh
  | dispatch (clientId : Option String) (accessToken : Option String)
deriving DecidableEq, Repr

/-- The scope argument of the initial token acquisition (line 464):
`options.scope ? [options.scope] : undefined`. -/
def initialScopes (options : TwitchAPICallOptions) : Option (List String) :=
  if strTruthy options.scope then some [options.scope.getD ""] else none

/-- The scope argument of the re-acquisition after a 401 (line 476):
`options.scope ? [options.scope] : []`. -/
def retryScopes (options : TwitchAPICallOptions) : Option (List String) :=
  if strTruthy options.scope then some [options.scope.getD ""] else some []

/-- The instance `callAPI` (lines 462-483) as a deterministic function of
the provider model, its initial state, the response the transport returns
for each successive dispatch, and the JSON parser used by the decoder.
Returns the decoded result together with the trace of observable events:
acquire a token (falling back to an unauthenticated static call when none
is returned), refresh before dispatch if the token is expired and the
provider can refresh, dispatch, and on a 401 refresh once, re-acquire and
re-dispatch at most once before decoding the final response. -/
def instanceCallAPI {σ : Type} (p : ProviderModel σ) (s0 : σ)
    (responses : Nat → Response) (parse : String → Except String Json)
    (options : TwitchAPICallOptions) :
    Except CallError (Option Json) × List Event :=
  let acquired := p.getAccessToken s0 (initialScopes options)
  match acquired.1 with
  | none =>
    (transformResponse parse (responses 0),
     [.getToken (initialScopes options), .dispatch (some p.clientId) none])
  | some tok0 =>
    let s1 := acquired.2
    let afterExpiry :=
      match p.refresh with
      | some rf =>
        if tok0.isExpired then
          let refreshed := rf s1
          (refreshed.1, refreshed.2, [Event.refresh])
        else (tok0, s1, ([] : List Event))
      | none => (tok0, s1, ([] : List Event))
    let tok1 := afterExpiry.1
    let s2 := afterExpiry.2.1
    let r0 := responses 0
    let events0 := Event.getToken (initialScopes options) :: afterExpiry.2.2 ++
      [Event.dispatch (some p.clientId) (some tok1.accessToken)]
    match p.refresh with
    | some rf =>
      if r0.status = 401 then
        let s3 := (rf s2).2
        let reacquired := p.getAccessToken s3 (retryScopes options)
        match reacquired.1 with
        | some tok2 =>
          (transformResponse parse (responses 1),
           events0 ++ [.refresh, .getToken (retryScopes options),
                       .dispatch (some p.clientId) (some tok2.accessToken)])
        | none =>
          (transformResponse parse r0,
           events0 ++ [.refresh, .getToken (retryScopes options)])
      else (transformResponse parse r0, events0)
    | none => (transformResponse parse r0, events0)

/-- Modelled from the spec: the `HelixRateLimiter` class
(`src/API/Helix/HelixRateLimiter.ts`) is not part of the provided source;
only its call site `_callAPIInternal` is. Per the spec, the limiter keeps
a rate-limit bucket (remaining-call count refreshed from response
metadata) and a queue of pending requests with the invariant that
requests are dispatched in strict arrival (FIFO) order. The state holds
the remaining capacity, the pending queue, and the dispatch log. -/
structure LimiterState (α : Type) where
  remaining : Nat
  pending : List α
  dispatched : List α
deriving DecidableEq, Repr

/-- Modelled from the spec: the two stimuli the limiter reacts to — a
request arriving at the limiter, and the bucket reset time elapsing with
a (metadata-reported) capacity refill. -/
inductive LimiterEvent (α : Type)
  | arrive (req : α)
  | reset (capacity : Nat)
deriving DecidableEq, Repr

/-- Modelled from the spec: one limiter transition. A request arriving
with positive remaining capacity is dispatched immediately and decrements
the count optimistically; with the bucket exhausted it is appended to the
FIFO queue. When the reset time elapses the bucket is refilled to the
reported capacity and the queue drains FIFO, consuming capacity per
drained request. -/
def limiterStep {α : Type} (st : LimiterState α) : LimiterEvent α → LimiterState α
  | .arrive req =>
    if 0 < st.remaining then
      { st with remaining := st.remaining - 1, dispatched := st.dispatched ++ [req] }
    else
      { st with pending := st.pending ++ [req] }
  | .reset cap =>
    let k := min cap st.pending.length
    { remaining := cap - k
      pending := st.pending.drop k
      dispatched := st.dispatched ++ st.pending.take k }

/-- Modelled from the spec: run the limiter from a fresh bucket of the
given capacity over a sequence of events. -/
def limiterRun {α : Type} (capacity : Nat) (events : List (LimiterEvent α)) :
    LimiterState α :=
  events.foldl limiterStep ⟨capacity, [], []⟩

/-- The requests of an event sequence, in arrival order. -/
def arrivalsOf {α : Type} : List (LimiterEvent α) → List α
  | [] => []
  | .arrive req :: rest => req :: arrivalsOf rest
  | .reset _ :: rest => arrivalsOf rest

/-- A miniature JSON parser used to instantiate the parser argument of the
decoder in concrete evaluations: accepts the texts `{}` and `[]`. -/
def toyParse : String → Except String Json
  | "{}" => .ok (.obj [])
  | "[]" => .ok (.arr [])
  | _ => .error "Unexpected token"

/-- A miniature stand-in for the `qs` stringifier in concrete evaluations:
keys joined by `&`. -/
def toyQS (m : FormMap) : String :=
  String.intercalate "&" (m.map Prod.fst)

/-- A miniature stand-in for `JSON.stringify` in concrete evaluations. -/
def toyJson : Json → String := fun _ => "0"

/-- The `Accept` header value `_callAPIRaw` computes for a descriptor. -/
def acceptValue (options : TwitchAPICallOptions) : String :=
  if effectiveType options = .Kraken then
    "application/vnd.twitchtv.v" ++ toString (jsOrNat options.version 5) ++ "+json"
  else
    "application/json"

/-- The reachable-state invariant of the limiter: requests are only
queued while the bucket is exhausted, so positive remaining capacity
implies an empty queue. -/
def LimiterState.inv {α : Type} (st : LimiterState α) : Prop :=
  0 < st.remaining → st.pending = []

/-- A concrete refresh operation for witnesses: bumps the provider state. -/
def rfEx : Nat → AccessToken × Nat := fun s => (⟨"r", false⟩, s + 1)

/-- A concrete refresh-capable provider for witnesses: returns token `t`
before the first refresh and `t2` afterwards. -/
def pEx : ProviderModel Nat :=
  { clientId := "cid"
    getAccessToken := fun s _ => (some ⟨if s = 0 then "t" else "t2", false⟩, s)
    refresh := some rfEx }

/-- A concrete transport for witnesses: 401 on the first dispatch, 200 on
the second. -/
def respEx : Nat → Response := fun n =>
  if n = 0 then ⟨401, "Unauthorized", "{}"⟩ else ⟨200, "OK", "{}"⟩

/-- A concrete scoped descriptor for witnesses. -/
def optsScoped : TwitchAPICallOptions := { url := "users", scope := some "user_read" }

/-- A concrete scopeless descriptor. -/
def optsNoScope : TwitchAPICallOptions := { url := "users" }

lemma headerValue_accept (sq sf : FormMap → String) (js : Json → String)
    (options : TwitchAPICallOptions) (cid tok : Option String) :
    headerValue (callAPIRaw sq sf js options cid tok) "Accept" =
      some (acceptValue options) := by
  unfold callAPIRaw headerValue acceptValue
  rcases options.body with _ | form <;> rcases options.jsonBody with _ | jv <;>
    simp [List.find?] <;> split_ifs <;> simp [List.find?]

lemma headerValue_contentType (sq sf : FormMap → String) (js : Json → String)
    (options : TwitchAPICallOptions) (cid tok : Option String) :
    headerValue (callAPIRaw sq sf js options cid tok) "Content-Type" =
      match options.body with
      | some _ => some "application/x-www-form-urlencoded"
      | none =>
        match options.jsonBody with
        | some jv => if jsTruthy jv then some "application/json" else none
        | none => none := by
  unfold callAPIRaw headerValue
  rcases options.body with _ | form <;> rcases options.jsonBody with _ | jv <;>
    simp [List.find?] <;> split_ifs <;> simp [List.find?] <;> aesop

lemma headerValue_clientId (sq sf : FormMap → String) (js : Json → String)
    (options : TwitchAPICallOptions) (cid tok : Option String) :
    headerValue (callAPIRaw sq sf js options cid tok) "Client-ID" =
      if strTruthy cid && effectiveType options != .Auth then
        some (cid.getD "")
      else none := by
  unfold callAPIRaw headerValue
  rcases options.body with _ | form <;> rcases options.jsonBody with _ | jv <;>
    simp [List.find?] <;> split_ifs <;> simp_all [List.find?]

lemma headerValue_authorization (sq sf : FormMap → String) (js : Json → String)
    (options : TwitchAPICallOptions) (cid tok : Option String) :
    headerValue (callAPIRaw sq sf js options cid tok) "Authorization" =
      if strTruthy tok then
        some ((if effectiveType options = .Helix then "Bearer" else "OAuth")
          ++ " " ++ tok.getD "")
      else none := by
  unfold callAPIRaw headerValue
  rcases options.body with _ | form <;> rcases options.jsonBody with _ | jv <;>
    simp [List.find?] <;> split_ifs <;> simp_all [List.find?]

lemma callAPIRaw_body (sq sf : FormMap → String) (js : Json → String)
    (options : TwitchAPICallOptions) (cid tok : Option String) :
    (callAPIRaw sq sf js options cid tok).body =
      match options.body with
      | some form => some (sf form)
      | none =>
        match options.jsonBody with
        | some jv => if jsTruthy jv then some (js jv) else none
        | none => none := by
  unfold callAPIRaw
  rcases options.body with _ | form <;> rcases options.jsonBody with _ | jv <;>
    simp <;> split_ifs <;> simp

lemma callAPIRaw_url (sq sf : FormMap → String) (js : Json → String)
    (options : TwitchAPICallOptions) (cid tok : Option String) :
    (callAPIRaw sq sf js options cid tok).url =
      if sq options.query != "" then
        getUrl options.url (effectiveType options) ++ "?" ++ sq options.query
      else
        getUrl options.url (effectiveType options) := by
  unfold callAPIRaw
  rcases options.body with _ | form <;> rcases options.jsonBody with _ | jv <;>
    simp <;> split_ifs <;> simp_all

/-- C2: for every response whose status lies outside the 2xx success
range, decoding fails with an HTTP-status error carrying the response's
status code, its status text, and the JSON-parsed error body; a parse
failure of the error body itself propagates as the parse error rather
than being specially handled. -/
theorem transform_non2xx_http_error (parse : String → Except String Json)
    (r : Response) (h : r.status < 200 ∨ 299 < r.status) :
    (∀ j, parse r.body = .ok j →
      transformResponse parse r = .error (.httpStatus r.status r.statusText j))
    ∧ (∀ m, parse r.body = .error m →
      transformResponse parse r = .error (.parseError m)) := by
  have hok : r.ok = false := by
    simp only [Response.ok, Bool.and_eq_false_iff, decide_eq_false_iff_not]
    omega
  constructor
  · intro j hj
    simp [transformResponse, hok, hj]
  · intro m hm
    simp [transformResponse, hok, hm]

/-- Witness for C2 at a concrete 404 response with a parseable JSON body. -/
theorem transform_non2xx_http_error_witness :
    (404 < 200 ∨ 299 < 404)
    ∧ transformResponse toyParse ⟨404, "Not Found", "{}"⟩
        = .error (.httpStatus 404 "Not Found" (.obj [])) :=
  ⟨Or.inr (by decide),
   (transform_non2xx_http_error toyParse ⟨404, "Not Found", "{}"⟩
     (Or.inr (by decide))).1 (.obj []) rfl⟩

/-- C3: a 204 response and an empty-bodied success response decode to the
empty (undefined) result without error; every other 2xx response has its
body parsed as JSON and returned, with malformed JSON failing as a parse
error. -/
theorem transform_success_decoding (parse : String → Except String Json)
    (r : Response) :
    (r.status = 204 → transformResponse parse r = .ok none)
    ∧ (r.ok = true → r.body = "" → transformResponse parse r = .ok none)
    ∧ (r.ok = true → r.status ≠ 204 → r.body ≠ "" →
        (∀ j, parse r.body = .ok j → transformResponse parse r = .ok (some j))
        ∧ (∀ m, parse r.body = .error m →
            transformResponse parse r = .error (.parseError m))) := by
  refine ⟨fun h204 => ?_, fun hok hb => ?_,
    fun hok h204 hb => ⟨fun j hj => ?_, fun m hm => ?_⟩⟩
  · have hok : r.ok = true := by simp [Response.ok, h204]
    simp [transformResponse, hok, h204]
  · simp [transformResponse, hok, hb]
  · simp [transformResponse, hok, h204, hb, hj]
  · simp [transformResponse, hok, h204, hb, hm]

/-- Witness for C3 at concrete 204, empty-body, well-formed and malformed
success responses. -/
theorem transform_success_decoding_witness :
    transformResponse toyParse ⟨204, "No Content", ""⟩ = .ok none
    ∧ transformResponse toyParse ⟨200, "OK", ""⟩ = .ok none
    ∧ transformResponse toyParse ⟨200, "OK", "[]"⟩ = .ok (some (.arr []))
    ∧ transformResponse toyParse ⟨200, "OK", "oops"⟩
        = .error (.parseError "Unexpected token") :=
  ⟨(transform_success_decoding toyParse ⟨204, "No Content", ""⟩).1 rfl,
   (transform_success_decoding toyParse ⟨200, "OK", ""⟩).2.1 (by decide) rfl,
   ((transform_success_decoding toyParse ⟨200, "OK", "[]"⟩).2.2 (by decide)
     (by decide) (by decide)).1 (.arr []) rfl,
   ((transform_success_decoding toyParse ⟨200, "OK", "oops"⟩).2.2 (by decide)
     (by decide) (by decide)).2 "Unexpected token" rfl⟩

/-- C7: the built request URL resolves the path (one leading slash
stripped) against the fixed Helix / Kraken API roots, against the fixed
token-issuance root for the auth group, and uses the path unchanged for
the custom group. -/
theorem url_resolution (sq sf : FormMap → String) (js : Json → String)
    (options : TwitchAPICallOptions) (cid tok : Option String)
    (hq : sq options.query = "") :
    (callAPIRaw sq sf js options cid tok).url
        = getUrl options.url (effectiveType options)
    ∧ (effectiveType options = .Kraken →
        getUrl options.url (effectiveType options)
          = "https://api.twitch.tv/kraken/" ++ stripLeadingSlash options.url)
    ∧ (effectiveType options = .Helix →
        getUrl options.url (effectiveType options)
          = "https://api.twitch.tv/helix/" ++ stripLeadingSlash options.url)
    ∧ (effectiveType options = .Auth →
        getUrl options.url (effectiveType options)
          = "https://id.twitch.tv/oauth2/" ++ stripLeadingSlash options.url)
    ∧ (effectiveType options = .Custom →
        getUrl options.url (effectiveType options) = options.url) := by
  refine ⟨?_, fun h => by rw [h]; rfl, fun h => by rw [h]; rfl,
    fun h => by rw [h]; rfl, fun h => by rw [h]; rfl⟩
  rw [callAPIRaw_url]
  simp [hq]

/-- Witness for C7 at a concrete Kraken descriptor with a
leading-slash path and an empty query. -/
theorem url_resolution_witness :
    toyQS ([] : FormMap) = ""
    ∧ (callAPIRaw toyQS toyQS toyJson
        { url := "/users", type := some .Kraken } none none).url
        = "https://api.twitch.tv/kraken/users" :=
  ⟨rfl,
   ((url_resolution toyQS toyQS toyJson
      { url := "/users", type := some .Kraken } none none rfl).1).trans
     (by rfl)⟩

/-- C4: a Kraken-group request's Accept header encodes the descriptor's
numeric API version into the vendor media type, defaulting to version 5
when omitted and reflecting version 7 when version 7 is set; every
non-Kraken, non-custom request carries `Accept: application/json`. -/
theorem accept_header_versioning (sq sf : FormMap → String) (js : Json → String)
    (options : TwitchAPICallOptions) (cid tok : Option String) :
    (effectiveType options = .Kraken →
      (options.version = none →
        headerValue (callAPIRaw sq sf js options cid tok) "Accept"
          = some "application/vnd.twitchtv.v5+json")
      ∧ (options.version = some 7 →
        headerValue (callAPIRaw sq sf js options cid tok) "Accept"
          = some "application/vnd.twitchtv.v7+json"))
    ∧ (effectiveType options ≠ .Kraken → effectiveType options ≠ .Custom →
        headerValue (callAPIRaw sq sf js options cid tok) "Accept"
          = some "application/json") := by
  constructor
  · intro hk
    constructor
    · intro hv
      rw [headerValue_accept]
      simp only [acceptValue, hk, hv, jsOrNat, if_true]
      rfl
    · intro hv
      rw [headerValue_accept]
      simp only [acceptValue, hk, hv, jsOrNat, if_true]
      rfl
  · intro hk hc
    rw [headerValue_accept]
    simp [acceptValue, hk, hc]

/-- Witness for C4 at concrete Kraken descriptors (version omitted and
version 7) and a concrete Helix descriptor. -/
theorem accept_header_versioning_witness :
    headerValue (callAPIRaw toyQS toyQS toyJson
        { url := "u", type := some .Kraken } none none) "Accept"
      = some "application/vnd.twitchtv.v5+json"
    ∧ headerValue (callAPIRaw toyQS toyQS toyJson
        { url := "u", type := some .Kraken, version := some 7 } none none) "Accept"
      = some "application/vnd.twitchtv.v7+json"
    ∧ headerValue (callAPIRaw toyQS toyQS toyJson
        { url := "u", type := some .Helix } none none) "Accept"
      = some "application/json" :=
  ⟨((accept_header_versioning toyQS toyQS toyJson
      { url := "u", type := some .Kraken } none none).1 rfl).1 rfl,
   ((accept_header_versioning toyQS toyQS toyJson
      { url := "u", type := some .Kraken, version := some 7 } none none).1 rfl).2 rfl,
   (accept_header_versioning toyQS toyQS toyJson
      { url := "u", type := some .Helix } none none).2 (by decide) (by decide)⟩

/-- C5 (amended): a supplied form body is serialized with the form
stringifier and the form content-type, and takes priority when a JSON
body is also present; a supplied JSON body is JSON-serialized with the
JSON content-type when no form body is present and the JSON body is
truthy — a falsy JSON body (null, false, 0, or the empty string) is
skipped, leaving the request bodiless with no content-type header. -/
theorem body_serialization_rules (sq sf : FormMap → String) (js : Json → String)
    (options : TwitchAPICallOptions) (cid tok : Option String) :
    (∀ form, options.body = some form →
      (callAPIRaw sq sf js options cid tok).body = some (sf form)
      ∧ headerValue (callAPIRaw sq sf js options cid tok) "Content-Type"
          = some "application/x-www-form-urlencoded")
    ∧ (∀ jv, options.body = none → options.jsonBody = some jv →
        jsTruthy jv = true →
      (callAPIRaw sq sf js options cid tok).body = some (js jv)
      ∧ headerValue (callAPIRaw sq sf js options cid tok) "Content-Type"
          = some "application/json")
    ∧ (∀ jv, options.body = none → options.jsonBody = some jv →
        jsTruthy jv = false →
      (callAPIRaw sq sf js options cid tok).body = none
      ∧ headerValue (callAPIRaw sq sf js options cid tok) "Content-Type"
          = none) := by
  refine ⟨fun form hf => ?_, fun jv hb hj hjt => ?_, fun jv hb hj hjt => ?_⟩
  · exact ⟨by rw [callAPIRaw_body]; simp [hf],
      by rw [headerValue_contentType]; simp [hf]⟩
  · exact ⟨by rw [callAPIRaw_body]; simp [hb, hj, hjt],
      by rw [headerValue_contentType]; simp [hb, hj, hjt]⟩
  · exact ⟨by rw [callAPIRaw_body]; simp [hb, hj, hjt],
      by rw [headerValue_contentType]; simp [hb, hj, hjt]⟩

/-- Witness for C5 at a concrete descriptor carrying both a form body and
a JSON body: only the form body is serialized, with the form
content-type. -/
theorem body_serialization_rules_witness :
    (callAPIRaw toyQS toyQS toyJson
      { url := "u", body := some [("a", ["b"])], jsonBody := some (.obj []) }
      none none).body = some (toyQS [("a", ["b"])])
    ∧ headerValue (callAPIRaw toyQS toyQS toyJson
        { url := "u", body := some [("a", ["b"])], jsonBody := some (.obj []) }
        none none) "Content-Type" = some "application/x-www-form-urlencoded" :=
  (body_serialization_rules toyQS toyQS toyJson
    { url := "u", body := some [("a", ["b"])], jsonBody := some (.obj []) }
    none none).1 [("a", ["b"])] rfl

/-- C5 counterexample: a descriptor supplying only the JSON body `0` — a
falsy JavaScript value — builds a request with no body at all and no
content-type header, so its JSON body is not serialized as the claim
states. -/
theorem body_serialization_cex :
    (callAPIRaw toyQS toyQS toyJson
      { url := "u", jsonBody := some (.num 0) } none none).body = none
    ∧ headerValue (callAPIRaw toyQS toyQS toyJson
        { url := "u", jsonBody := some (.num 0) } none none) "Content-Type"
      = none
    ∧ (none : Option String) ≠ some (toyJson (.num 0)) := by
  refine ⟨by decide, by decide, by decide⟩

/-- C6: a request built with a truthy client identifier for a group other
than auth carries the `Client-ID` header; a request built with a truthy
access token carries an `Authorization` header whose scheme is `Bearer`
for the Helix group and the legacy `OAuth` scheme for every other
group. -/
theorem client_id_and_auth_headers (sq sf : FormMap → String)
    (js : Json → String) (options : TwitchAPICallOptions)
    (cid tok : Option String) :
    (∀ c, cid = some c → c ≠ "" → effectiveType options ≠ .Auth →
      headerValue (callAPIRaw sq sf js options cid tok) "Client-ID" = some c)
    ∧ (∀ t, tok = some t → t ≠ "" →
      headerValue (callAPIRaw sq sf js options cid tok) "Authorization"
        = some ((if effectiveType options = .Helix then "Bearer" else "OAuth")
            ++ " " ++ t)) := by
  constructor
  · intro c hc hcne hty
    rw [headerValue_clientId]
    simp [strTruthy, hc, hcne, hty, bne_iff_ne]
  · intro t ht htne
    rw [headerValue_authorization]
    simp [strTruthy, ht, htne]

/-- Witness for C6 at a concrete Helix descriptor with a client id and an
access token: `Client-ID` is attached and the authorization scheme is
`Bearer`. -/
theorem client_id_and_auth_headers_witness :
    headerValue (callAPIRaw toyQS toyQS toyJson { url := "u", type := some .Helix }
      (some "myclient") (some "tk")) "Client-ID" = some "myclient"
    ∧ headerValue (callAPIRaw toyQS toyQS toyJson { url := "u", type := some .Helix }
        (some "myclient") (some "tk")) "Authorization"
      = some ((if effectiveType { url := "u", type := some .Helix } = .Helix
          then "Bearer" else "OAuth") ++ " " ++ "tk") :=
  ⟨(client_id_and_auth_headers toyQS toyQS toyJson
      { url := "u", type := some .Helix } (some "myclient") (some "tk")).1
      "myclient" rfl (by decide) (by decide),
   (client_id_and_auth_headers toyQS toyQS toyJson
      { url := "u", type := some .Helix } (some "myclient") (some "tk")).2
      "tk" rfl (by decide)⟩

/-- C8: the static and the instance `getTokenInfo` both translate an
HTTP-status failure with status code 401 into the dedicated
`InvalidTokenError` — a value distinct from the generic HTTP-status
error — and pass every other outcome through unchanged. -/
theorem tokenInfo_invalid_token_mapping (res : Except CallError Json) :
    (∀ text body, res = .error (.httpStatus 401 text body) →
      staticGetTokenInfo res = .error .invalidToken
      ∧ instanceGetTokenInfo res = .error .invalidToken
      ∧ CallError.invalidToken ≠ .httpStatus 401 text body)
    ∧ (∀ e, res = .error e →
        (∀ code text body, e = .httpStatus code text body → code ≠ 401) →
        staticGetTokenInfo res = .error e ∧ instanceGetTokenInfo res = .error e)
    ∧ (∀ d, res = .ok d →
        staticGetTokenInfo res = .ok d ∧ instanceGetTokenInfo res = .ok d) := by
  refine ⟨fun text body h => ?_, fun e h hne => ?_, fun d h => ?_⟩
  · subst h
    exact ⟨rfl, rfl, fun hc => CallError.noConfusion hc⟩
  · subst h
    cases e with
    | httpStatus code text body =>
      have hc : code ≠ 401 := hne code text body rfl
      simp [staticGetTokenInfo, instanceGetTokenInfo, mapTokenInfoError, hc]
    | invalidToken => exact ⟨rfl, rfl⟩
    | parseError m => exact ⟨rfl, rfl⟩
  · subst h
    exact ⟨rfl, rfl⟩

/-- Witness for C8: a 401 HTTP failure becomes `InvalidTokenError`, a 404
HTTP failure propagates unchanged. -/
theorem tokenInfo_invalid_token_mapping_witness :
    staticGetTokenInfo (.error (.httpStatus 401 "Unauthorized" (.obj [])))
        = .error .invalidToken
    ∧ instanceGetTokenInfo (.error (.httpStatus 404 "Not Found" (.obj [])))
        = .error (.httpStatus 404 "Not Found" (.obj [])) :=
  ⟨((tokenInfo_invalid_token_mapping
      (.error (.httpStatus 401 "Unauthorized" (.obj [])))).1
      "Unauthorized" (.obj []) rfl).1,
   ((tokenInfo_invalid_token_mapping
      (.error (.httpStatus 404 "Not Found" (.obj [])))).2.1
      (.httpStatus 404 "Not Found" (.obj [])) rfl
      (fun code text body h => by cases h; decide)).2⟩

/-- C10: a descriptor omitting the endpoint group is treated exactly as a
standard (Kraken) call: the URL resolves against the Kraken API root, the
Accept header carries the Kraken vendor media type, an access token uses
the legacy OAuth authorization scheme, and the dispatch route bypasses
the Helix rate limiter. -/
theorem default_group_kraken (sq sf : FormMap → String) (js : Json → String)
    (options : TwitchAPICallOptions) (cid tok : Option String)
    (hty : options.type = none) :
    effectiveType options = .Kraken
    ∧ (sq options.query = "" →
        (callAPIRaw sq sf js options cid tok).url
          = "https://api.twitch.tv/kraken/" ++ stripLeadingSlash options.url)
    ∧ headerValue (callAPIRaw sq sf js options cid tok) "Accept"
        = some ("application/vnd.twitchtv.v"
            ++ toString (jsOrNat options.version 5) ++ "+json")
    ∧ (∀ t, tok = some t → t ≠ "" →
        headerValue (callAPIRaw sq sf js options cid tok) "Authorization"
          = some ("OAuth " ++ t))
    ∧ callAPIInternalRoute options = .direct := by
  have hk : effectiveType options = .Kraken := by simp [effectiveType, hty]
  refine ⟨hk, fun hq => ?_, ?_, fun t ht htne => ?_, ?_⟩
  · rw [callAPIRaw_url]
    simp [hq, hk, getUrl]
  · rw [headerValue_accept]
    simp [acceptValue, hk]
  · rw [headerValue_authorization]
    simp [ht, strTruthy, htne, hk]
  · simp [callAPIInternalRoute, hty]

lemma limiterStep_inv {α : Type} (st : LimiterState α) (e : LimiterEvent α)
    (h : st.inv) : (limiterStep st e).inv := by
  cases e with
  | arrive req =>
    by_cases hr : 0 < st.remaining
    · intro _
      simpa [limiterStep, hr] using h hr
    · intro h0
      simp [limiterStep, hr] at h0
  | reset cap =>
    intro h0
    simp only [limiterStep] at h0 ⊢
    have hk : min cap st.pending.length = st.pending.length := by omega
    rw [hk]
    exact List.drop_length _

lemma limiterStep_trace {α : Type} (st : LimiterState α) (e : LimiterEvent α)
    (h : st.inv) :
    (limiterStep st e).dispatched ++ (limiterStep st e).pending
      = st.dispatched ++ st.pending ++ arrivalsOf [e] := by
  cases e with
  | arrive req =>
    by_cases hr : 0 < st.remaining
    · simp [limiterStep, hr, arrivalsOf, h hr]
    · simp [limiterStep, hr, arrivalsOf]
  | reset cap =>
    simp only [limiterStep, arrivalsOf, List.append_nil, List.append_assoc,
      List.take_append_drop]

lemma limiterFold_trace {α : Type} (events : List (LimiterEvent α))
    (st : LimiterState α) (h : st.inv) :
    ((events.foldl limiterStep st).dispatched
        ++ (events.foldl limiterStep st).pending
      = st.dispatched ++ st.pending ++ arrivalsOf events)
    ∧ (events.foldl limiterStep st).inv := by
  induction events generalizing st with
  | nil => simpa [arrivalsOf] using h
  | cons e rest ih =>
    have hinv := limiterStep_inv st e h
    have htr := limiterStep_trace st e h
    have hrest := ih (limiterStep st e) hinv
    refine ⟨?_, hrest.2⟩
    rw [List.foldl_cons, hrest.1, htr]
    cases e <;> simp [arrivalsOf]

/-- C9 (spec-modelled): when more requests arrive at the Helix rate
limiter than the bucket has capacity for, the dispatch log always equals
the arrival sequence up to the still-pending suffix — requests are
dispatched in strict arrival (FIFO) order, i.e. the dispatch log is a
prefix of the arrival order. -/
theorem helix_limiter_fifo {α : Type} (capacity : Nat)
    (events : List (LimiterEvent α))
    (h : capacity < (arrivalsOf events).length) :
    (limiterRun capacity events).dispatched
        ++ (limiterRun capacity events).pending = arrivalsOf events
    ∧ (limiterRun capacity events).dispatched <+: arrivalsOf events := by
  have htr := (limiterFold_trace events ⟨capacity, [], []⟩ (fun _ => rfl)).1
  simp only [limiterRun]
  simp only [List.nil_append] at htr
  exact ⟨htr, ⟨(events.foldl limiterStep ⟨capacity, [], []⟩).pending, htr⟩⟩

/-- Witness for C9: three requests arriving at a bucket of capacity one,
followed by a reset — the dispatch log stays in arrival order. -/
theorem helix_limiter_fifo_witness :
    (1 : Nat) < (arrivalsOf
      [LimiterEvent.arrive 0, .arrive 1, .arrive 2, .reset 2]).length
    ∧ ((limiterRun 1 [LimiterEvent.arrive 0, .arrive 1, .arrive 2, .reset 2]).dispatched
          ++ (limiterRun 1
            [LimiterEvent.arrive 0, .arrive 1, .arrive 2, .reset 2]).pending
        = arrivalsOf [LimiterEvent.arrive 0, .arrive 1, .arrive 2, .reset 2]
      ∧ (limiterRun 1
          [LimiterEvent.arrive 0, .arrive 1, .arrive 2, .reset 2]).dispatched
        <+: arrivalsOf [LimiterEvent.arrive 0, .arrive 1, .arrive 2, .reset 2]) :=
  ⟨by decide,
   helix_limiter_fifo 1 [LimiterEvent.arrive 0, .arrive 1, .arrive 2, .reset 2]
     (by decide)⟩

lemma transformResponse_401_error (parse : String → Except String Json)
    (r : Response) (h : r.status = 401) :
    ∃ e, transformResponse parse r = .error e := by
  have hok : r.ok = false := by simp [Response.ok, h]
  rcases hp : parse r.body with m | j
  · exact ⟨.parseError m, by simp [transformResponse, hok, hp]⟩
  · exact ⟨.httpStatus r.status r.statusText j, by simp [transformResponse, hok, hp]⟩

/-- C1 (amended): with a refresh-capable provider and an initially
acquired token, a 401 on the first dispatch triggers exactly one refresh,
then exactly one token re-acquisition and at most one re-dispatch. The
re-acquisition is scoped `[scope]`, identically to the original request,
whenever the descriptor carries a scope; when it carries none, the
re-acquisition passes the empty scope list where the original passed no
scope argument. When the re-acquisition yields a token the re-dispatched
(second) response is decoded — a second 401 surfaces as an error and is
not retried — and when it yields none the original failed response is
decoded. -/
theorem callAPI_single_retry {σ : Type} (p : ProviderModel σ) (s0 : σ)
    (responses : Nat → Response) (parse : String → Except String Json)
    (options : TwitchAPICallOptions) (rf : σ → AccessToken × σ)
    (hrf : p.refresh = some rf) (tok0 : AccessToken) (s1 : σ)
    (hget : p.getAccessToken s0 (initialScopes options) = (some tok0, s1))
    (h401 : (responses 0).status = 401) :
    (strTruthy options.scope = true → retryScopes options = initialScopes options)
    ∧ ∃ (pre : List Event) (t1 : String),
      (pre = [] ∨ pre = [.refresh])
      ∧ ((∃ t2 : String,
            (instanceCallAPI p s0 responses parse options).2
              = .getToken (initialScopes options) :: pre
                ++ [.dispatch (some p.clientId) (some t1), .refresh,
                    .getToken (retryScopes options),
                    .dispatch (some p.clientId) (some t2)]
            ∧ (instanceCallAPI p s0 responses parse options).1
                = transformResponse parse (responses 1)
            ∧ ((responses 1).status = 401 →
                ∃ e, (instanceCallAPI p s0 responses parse options).1 = .error e))
        ∨ ((instanceCallAPI p s0 responses parse options).2
              = .getToken (initialScopes options) :: pre
                ++ [.dispatch (some p.clientId) (some t1), .refresh,
                    .getToken (retryScopes options)]
            ∧ (instanceCallAPI p s0 responses parse options).1
                = transformResponse parse (responses 0))) := by
  constructor
  · intro hsc
    simp [retryScopes, initialScopes, hsc]
  · cases hexp : tok0.isExpired with
    | false =>
      rcases hre : p.getAccessToken (rf s1).2 (retryScopes options) with ⟨tok2opt, s4⟩
      cases tok2opt with
      | some tok2 =>
        refine ⟨[], tok0.accessToken, Or.inl rfl,
          Or.inl ⟨tok2.accessToken, ?_, ?_, ?_⟩⟩
        · simp [instanceCallAPI, hget, hrf, hexp, h401, hre]
        · simp [instanceCallAPI, hget, hrf, hexp, h401, hre]
        · intro h401b
          rcases transformResponse_401_error parse (responses 1) h401b with ⟨e, he⟩
          exact ⟨e, by simp [instanceCallAPI, hget, hrf, hexp, h401, hre, he]⟩
      | none =>
        refine ⟨[], tok0.accessToken, Or.inl rfl, Or.inr ⟨?_, ?_⟩⟩
        · simp [instanceCallAPI, hget, hrf, hexp, h401, hre]
        · simp [instanceCallAPI, hget, hrf, hexp, h401, hre]
    | true =>
      rcases hrs : rf s1 with ⟨tokR, sR⟩
      rcases hre : p.getAccessToken (rf sR).2 (retryScopes options) with ⟨tok2opt, s4⟩
      cases tok2opt with
      | some tok2 =>
        refine ⟨[.refresh], tokR.accessToken, Or.inr rfl,
          Or.inl ⟨tok2.accessToken, ?_, ?_, ?_⟩⟩
        · simp [instanceCallAPI, hget, hrf, hexp, h401, hrs, hre]
        · simp [instanceCallAPI, hget, hrf, hexp, h401, hrs, hre]
        · intro h401b
          rcases transformResponse_401_error parse (responses 1) h401b with ⟨e, he⟩
          exact ⟨e, by simp [instanceCallAPI, hget, hrf, hexp, h401, hrs, hre, he]⟩
      | none =>
        refine ⟨[.refresh], tokR.accessToken, Or.inr rfl, Or.inr ⟨?_, ?_⟩⟩
        · simp [instanceCallAPI, hget, hrf, hexp, h401, hrs, hre]
        · simp [instanceCallAPI, hget, hrf, hexp, h401, hrs, hre]

/-- Witness for C1 at the concrete provider, transport and scoped
descriptor. -/
theorem callAPI_single_retry_witness :
    pEx.refresh = some rfEx
    ∧ pEx.getAccessToken 0 (initialScopes optsScoped) = (some ⟨"t", false⟩, 0)
    ∧ (respEx 0).status = 401
    ∧ ((strTruthy optsScoped.scope = true →
          retryScopes optsScoped = initialScopes optsScoped)
      ∧ ∃ (pre : List Event) (t1 : String),
        (pre = [] ∨ pre = [.refresh])
        ∧ ((∃ t2 : String,
              (instanceCallAPI pEx 0 respEx toyParse optsScoped).2
                = .getToken (initialScopes optsScoped) :: pre
                  ++ [.dispatch (some pEx.clientId) (some t1), .refresh,
                      .getToken (retryScopes optsScoped),
                      .dispatch (some pEx.clientId) (some t2)]
              ∧ (instanceCallAPI pEx 0 respEx toyParse optsScoped).1
                  = transformResponse toyParse (respEx 1)
              ∧ ((respEx 1).status = 401 →
                  ∃ e, (instanceCallAPI pEx 0 respEx toyParse optsScoped).1
                    = .error e))
          ∨ ((instanceCallAPI pEx 0 respEx toyParse optsScoped).2
                = .getToken (initialScopes optsScoped) :: pre
                  ++ [.dispatch (some pEx.clientId) (some t1), .refresh,
                      .getToken (retryScopes optsScoped)]
              ∧ (instanceCallAPI pEx 0 respEx toyParse optsScoped).1
                  = transformResponse toyParse (respEx 0)))) :=
  ⟨rfl, rfl, rfl,
   callAPI_single_retry pEx 0 respEx toyParse optsScoped rfEx rfl
     ⟨"t", false⟩ 0 rfl rfl⟩

/-- C1 counterexample: for a descriptor carrying no scope the
re-acquisition after the 401 is not scoped identically to the original
request — the original acquisition passes no scope argument (`undefined`)
while the retry re-acquisition passes the empty scope list. -/
theorem callAPI_retry_scope_cex :
    (instanceCallAPI pEx 0 respEx toyParse optsNoScope).2
      = [.getToken none, .dispatch (some "cid") (some "t"),
         .refresh, .getToken (some []), .dispatch (some "cid") (some "t2")]
    ∧ initialScopes optsNoScope = none
    ∧ retryScopes optsNoScope = some []
    ∧ (none : Option (List String)) ≠ some [] := by
  exact ⟨by decide, rfl, rfl, by decide⟩

/-- Witness for C10 at a concrete descriptor with no `type` field. -/
theorem default_group_kraken_witness :
    effectiveType { url := "users" } = .Kraken
    ∧ callAPIInternalRoute { url := "users" } = .direct
    ∧ headerValue (callAPIRaw toyQS toyQS toyJson { url := "users" } none (some "tk"))
        "Authorization" = some ("OAuth " ++ "tk") :=
  ⟨(default_group_kraken toyQS toyQS toyJson { url := "users" } none (some "tk")
      rfl).1,
   (default_group_kraken toyQS toyQS toyJson { url := "users" } none (some "tk")
      rfl).2.2.2.2,
   (default_group_kraken toyQS toyQS toyJson { url := "users" } none (some "tk")
      rfl).2.2.2.1 "tk" rfl (by decide)⟩

end Twitch
